import Mathlib

/-!
Shallow embedding of `aiff2arduino.go`, a converter from AIFF/AIFC audio
files to an 8-bit PCM C array literal.

Modelling conventions:
* The input file is a `List Nat` of bytes (well-formed files have all
  entries `< 256`); the buffered reader is modelled by structural list
  consumption, and a failed `binary.Read` / `ReadByte` (short stream)
  becomes an `Err.readErr` (the Go code panics with the read error).
* Go machine integers are `Nat`/`Int` with explicit two's-complement
  wrapping (`wrap16`, `wrap32`) at the points where the Go code can
  overflow.
* The `float64` sample pipeline is modelled over `ℚ`.  Every claim settled
  through this model only exercises arithmetic that is exact in IEEE
  float64: `float64(int16) / 256.0 + 128.0` is a dyadic rational with at
  most 16 significand bits, `math.Floor`, comparisons and the `uint16`
  conversion of an in-range value are exact, and multiplication by the
  all-zero initial dither history is exact.  Decimal FIR literals are
  transcribed as the corresponding decimal rationals; no settled claim
  depends on their values.
* Standard output is modelled as a list of emitted items (`OutItem`), in
  emission order: the `prog_uchar <name>[] PROGMEM = {` header line, the
  decimal sample values, the `", "` separators and the closing `};` line.
  Writes to standard error (the four diagnostic lines) are not part of
  the model.
-/

namespace Aiff2Arduino

/-- Two's-complement wrap of an integer into the `int16` range, modelling
Go `int16` overflow. -/
def wrap16 (x : Int) : Int := (x + 2 ^ 15).emod (2 ^ 16) - 2 ^ 15

/-- Two's-complement wrap of an integer into the `int32` range, modelling
Go `int32` overflow. -/
def wrap32 (x : Int) : Int := (x + 2 ^ 31).emod (2 ^ 32) - 2 ^ 31

/-- Reinterpret an unsigned `w`-bit value as a signed one
(two's complement). -/
def toSigned (w : Nat) (n : Nat) : Int :=
  if n < 2 ^ (w - 1) then (n : Int) else (n : Int) - 2 ^ w

/-- Big-endian decoding of two bytes as an unsigned 16-bit value. -/
def beU16 (b1 b2 : Nat) : Nat := b1 * 256 + b2

/-- Big-endian decoding of four bytes as an unsigned 32-bit value. -/
def beU32 (b1 b2 b3 b4 : Nat) : Nat := ((b1 * 256 + b2) * 256 + b3) * 256 + b4

/-- Big-endian decoding of two bytes as a signed 16-bit value; this is the
Go helper `readInt16` (which cannot fail: its two bytes are already in
hand). -/
def beI16 (b1 b2 : Nat) : Int := toSigned 16 (beU16 b1 b2)

/-- Big-endian decoding of four bytes as a signed 32-bit value (the
`Size` field of a `ChunkHeader`). -/
def beI32 (b1 b2 b3 b4 : Nat) : Int := toSigned 32 (beU32 b1 b2 b3 b4)

/-- The ASCII bytes of the chunk tag `FORM`. -/
def formTag : List Nat := [70, 79, 82, 77]

/-- The ASCII bytes of the form type `AIFF`. -/
def aiffTag : List Nat := [65, 73, 70, 70]

/-- The ASCII bytes of the form type `AIFC`. -/
def aifcTag : List Nat := [65, 73, 70, 67]

/-- The ASCII bytes of the chunk tag `COMM`. -/
def commTag : List Nat := [67, 79, 77, 77]

/-- The ASCII bytes of the chunk tag `SSND`. -/
def ssndTag : List Nat := [83, 83, 78, 68]

/-- The ASCII bytes of the compression type tag `raw ` (the only tag the
converter accepts). -/
def rawTag : List Nat := [114, 97, 119, 32]

/-- The ASCII bytes of the compression type tag `NONE`. -/
def noneTag : List Nat := [78, 79, 78, 69]

/-- The distinct failure points of the converter.  The Go program panics
at each of them; `readErr` stands for any failed `binary.Read`/`ReadByte`
(short stream), the others for the explicit validation panics. -/
inductive Err where
  /-- a `binary.Read` or `ReadByte` failed (stream exhausted) -/
  | readErr : Err
  /-- top-level tag is not `FORM` -/
  | notForm : Err
  /-- form type is neither `AIFF` nor `AIFC` -/
  | badFormType : Err
  /-- AIFC compression type is not `raw ` -/
  | notRawPcm : Err
  /-- sample size is neither 8 nor 16 -/
  | badSampleSize : Err
  /-- SSND offset or blockSize is non-zero -/
  | badSsndHeader : Err
  deriving DecidableEq

/-- One item written to standard output, in emission order. -/
inductive OutItem where
  /-- the `prog_uchar <name>[] PROGMEM = {` line; carries the array name -/
  | headerLine : List Char → OutItem
  /-- one decimal sample value -/
  | num : Nat → OutItem
  /-- the `", "` separator -/
  | comma : OutItem
  /-- the closing `};` line -/
  | close : OutItem
  deriving DecidableEq

/-- The number of payload bytes the chunk scanner skips for a chunk of
declared size `size`: Go computes `(size + 1) &^ 1` in `int32`
arithmetic, i.e. `size + 1` (wrapped) with its lowest bit cleared.  For an
integer `t`, clearing the lowest bit is `t - t.emod 2`. -/
def padSize (size : Int) : Int :=
  let t := wrap32 (size + 1)
  t - t.emod 2

/-- Go `skipBytes`: reads and discards `size` bytes one at a time,
ignoring read errors; a non-positive count reads nothing, and a stream
shorter than `size` is simply exhausted. -/
def skipBytes (s : List Nat) (size : Int) : List Nat := s.drop size.toNat

/-- Go `scanChunk`: repeatedly reads an 8-byte chunk header (4-byte tag,
4-byte big-endian signed size).  If the tag matches, the stream after the
header is returned; otherwise `padSize size` payload bytes are skipped
and scanning continues.  A failed header read (fewer than 8 bytes left)
is the Go `panic(err)`, modelled as `none`. -/
def scanChunk (tag : List Nat) (s : List Nat) : Option (List Nat) :=
  if h : 8 ≤ s.length then
    if s.take 4 = tag then some (s.drop 8)
    else
      scanChunk tag
        (skipBytes (s.drop 8)
          (padSize (beI32 (s.getD 4 0) (s.getD 5 0) (s.getD 6 0) (s.getD 7 0))))
  else none
termination_by s.length
decreasing_by
  simp only [skipBytes, List.length_drop]
  omega

/-- Reading and validating the 12-byte `AIFFChunkHeader`: tag must be
`FORM`, form type must be `AIFF` or `AIFC`.  Returns Go's
`hasCompression` flag (fourth byte of the form type equals `'C'` = 67)
and the remaining stream. -/
def parseForm (s : List Nat) : Except Err (Bool × List Nat) :=
  if 12 ≤ s.length then
    if s.take 4 ≠ formTag then Except.error Err.notForm
    else if (s.drop 8).take 4 ≠ aifcTag ∧ (s.drop 8).take 4 ≠ aiffTag then
      Except.error Err.badFormType
    else Except.ok (decide (s.getD 11 0 = 67), s.drop 12)
  else Except.error Err.readErr

/-- Reading the 18-byte `CommonChunkHeader` body: `NumChannels` (signed
16-bit), `NumSampleFrames` (unsigned 32-bit), `SampleSize` (unsigned
16-bit), followed by the 10-byte 80-bit extended `SampleRate`.  The
sample-rate bytes are consumed here; their decoded value is only printed
to standard error and plays no role in the conversion. -/
def readCommon (s : List Nat) : Option ((Int × Nat × Nat) × List Nat) :=
  if 18 ≤ s.length then
    some ((beI16 (s.getD 0 0) (s.getD 1 0),
           beU32 (s.getD 2 0) (s.getD 3 0) (s.getD 4 0) (s.getD 5 0),
           beU16 (s.getD 6 0) (s.getD 7 0)),
          s.drop 18)
  else none

/-- Go's `paddedStringSize` for a compression name of `n` bytes:
`(int32(n) + 2) &^ 1` (here `n + 2 ≤ 257`, so no `int32` wrap can
occur). -/
def paddedStringSize (n : Nat) : Int := ((n : Int) + 2) - ((n : Int) + 2).emod 2

/-- The AIFC-only compression handling: read the 5-byte
`CompressionHeader` (4-byte type tag, 1-byte name size); fail unless the
tag is `raw `; then skip the `paddedStringSize - 1` remaining bytes of
the padded compression-name string. -/
def compressionStep (s : List Nat) : Except Err (List Nat) :=
  if 5 ≤ s.length then
    if s.take 4 ≠ rawTag then Except.error Err.notRawPcm
    else Except.ok (skipBytes (s.drop 5) (paddedStringSize (s.getD 4 0) - 1))
  else Except.error Err.readErr

/-- Reading the 8-byte `SoundDataChunkHeader`: `Offset` and `BlockSize`,
both unsigned 32-bit big-endian. -/
def readSsnd (s : List Nat) : Option ((Nat × Nat) × List Nat) :=
  if 8 ≤ s.length then
    some ((beU32 (s.getD 0 0) (s.getD 1 0) (s.getD 2 0) (s.getD 3 0),
           beU32 (s.getD 4 0) (s.getD 5 0) (s.getD 6 0) (s.getD 7 0)),
          s.drop 8)
  else none

/-- Everything `main` does before the sample loop, in the code's order:
FORM header validation, scan to `COMM` and read it, the AIFC compression
step, the 8/16 sample-size check, scan to `SSND`, and the zero
offset/blockSize check.  On success it returns `NumChannels`,
`NumSampleFrames`, `SampleSize` and the stream positioned at the sound
data. -/
def parsePhase (file : List Nat) : Except Err (Int × Nat × Nat × List Nat) :=
  match parseForm file with
  | Except.error e => Except.error e
  | Except.ok (hasComp, s1) =>
    match scanChunk commTag s1 with
    | none => Except.error Err.readErr
    | some s2 =>
      match readCommon s2 with
      | none => Except.error Err.readErr
      | some ((nc, frames, ss), s3) =>
        match (if hasComp then compressionStep s3 else Except.ok s3) with
        | Except.error e => Except.error e
        | Except.ok s4 =>
          if ss ≠ 8 ∧ ss ≠ 16 then Except.error Err.badSampleSize
          else
            match scanChunk ssndTag s4 with
            | none => Except.error Err.readErr
            | some s5 =>
              match readSsnd s5 with
              | none => Except.error Err.readErr
              | some ((off, blk), s6) =>
                if off ≠ 0 ∨ blk ≠ 0 then Except.error Err.badSsndHeader
                else Except.ok (nc, frames, ss, s6)

/-- Lipshitz's minimally audible FIR weights, the Go `SHAPED_BS` slice
(decimal literals transcribed as decimal rationals). -/
def SHAPED_BS : List ℚ := [2033/1000, -2165/1000, 1959/1000, -159/100, 6149/10000]

/-- The dither state: the circular 8-entry error history `buffer` and the
rotation index `idx` (kept in `[0, 8)`; Go keeps a `uint` and masks with
`& 7` on every access, which is the same). -/
structure DState where
  buffer : List ℚ
  idx : Nat
  deriving DecidableEq

/-- The initial dither state (`make([]float64, 8)` and `idx = 0`). -/
def dInit : DState := ⟨List.replicate 8 0, 0⟩

/-- History access `buffer[(idx - k) & 7]`: for `idx < 8` and `k ≤ 7` the
wrapped unsigned subtraction masked with `& 7` equals
`(idx + (8 - k)) % 8` because `8` divides `2 ^ 64`. -/
def bufAt (st : DState) (k : Nat) : ℚ := st.buffer.getD ((st.idx + (8 - k)) % 8) 0

/-- The error-fed-back value `xe` of the Go `dither` closure: the input
plus the five weighted history taps. -/
def ditherXe (st : DState) (v : ℚ) : ℚ :=
  v + bufAt st 0 * SHAPED_BS.getD 0 0
    + bufAt st 1 * SHAPED_BS.getD 1 0
    + bufAt st 2 * SHAPED_BS.getD 2 0
    + bufAt st 3 * SHAPED_BS.getD 3 0
    + bufAt st 4 * SHAPED_BS.getD 4 0

/-- Go `round`: `math.Floor(v + 0.5)`. -/
def round (v : ℚ) : ℚ := ((⌊v + 1/2⌋ : Int) : ℚ)

/-- Go `filter`: saturate to `[0, 255]`. -/
def filter (v : ℚ) : ℚ := if 255 < v then 255 else if v < 0 then 0 else v

/-- The Go conversion `uint16(q)` as applied to the output of `filter`:
for the non-negative values `filter` produces, Go's float-to-integer
conversion truncates toward zero, i.e. takes the floor. -/
def goUint16 (q : ℚ) : Nat := (⌊q⌋).toNat

/-- Go `dither(v, addNoise)`.  The pseudo-random generator is modelled as
an ambient stream `noise : Nat → ℚ` together with the index `nIdx` of the
next unconsumed draw; each Go `noise()` call consumes one draw.  Returns
the result together with the updated state and stream index. -/
def ditherStep (st : DState) (v : ℚ) (addNoise : Bool) (noise : Nat → ℚ)
    (nIdx : Nat) : ℚ × DState × Nat :=
  let xe := ditherXe st v
  let mixed := if addNoise then xe + (noise nIdx + noise (nIdx + 1)) else xe
  let result := round mixed
  let idx2 := (st.idx + 1) % 8
  (result, ⟨st.buffer.set idx2 (xe - result), idx2⟩,
   if addNoise then nIdx + 2 else nIdx)

/-- The value fed to the reducer for a 16-bit sample `v`:
`float64(v) / 256.0 + 128.0` (exact in float64). -/
def sampleToQ (v : Int) : ℚ := (v : ℚ) / 256 + 128

/-- The no-dither 16-bit reduction actually printed by `main`:
`uint16(filter(float64(v) / 256.0 + 128.0))` — note there is no call to
`round` on this path. -/
def reduceNoDither (v : Int) : Nat := goUint16 (filter (sampleToQ v))

/-- The sample loop of `main`, by remaining frame count.  Per frame: read
one byte (panic on a short stream); for 8-bit input print it unchanged;
for 16-bit input read a second byte, decode a signed big-endian sample
and print the reduced value (dithered or not); print `", "` unless this
is the last frame; then read and discard `NumChannels - 1` further bytes
(one `ReadByte` per extra channel, errors ignored).  `skipCh` is that
per-frame discard count. -/
def sampleLoop (d : Bool) (ss : Nat) (skipCh : Nat) (noise : Nat → ℚ) :
    Nat → List Nat → DState → Nat → List OutItem × Option Err
  | 0, _, _, _ => ([], none)
  | rem + 1, s, st, nIdx =>
    match s with
    | [] => ([], some Err.readErr)
    | b1 :: s1 =>
      if ss = 8 then
        let sep : List OutItem := if 0 < rem then [OutItem.comma] else []
        let next := sampleLoop d ss skipCh noise rem (s1.drop skipCh) st nIdx
        (OutItem.num b1 :: (sep ++ next.1), next.2)
      else if ss = 16 then
        match s1 with
        | [] => ([], some Err.readErr)
        | b2 :: s2 =>
          let v := beI16 b1 b2
          let sep : List OutItem := if 0 < rem then [OutItem.comma] else []
          if d then
            let step := ditherStep st (sampleToQ v) false noise nIdx
            let next :=
              sampleLoop d ss skipCh noise rem (s2.drop skipCh) step.2.1 step.2.2
            (OutItem.num (goUint16 (filter step.1)) :: (sep ++ next.1), next.2)
          else
            let next := sampleLoop d ss skipCh noise rem (s2.drop skipCh) st nIdx
            (OutItem.num (reduceNoDither v) :: (sep ++ next.1), next.2)
      else
        let sep : List OutItem := if 0 < rem then [OutItem.comma] else []
        let next := sampleLoop d ss skipCh noise rem (s1.drop skipCh) st nIdx
        (sep ++ next.1, next.2)

/-- Scan of the reversed path for the extension start, modelling Go
`path.Ext`: walk from the last character toward the front, stop at `'/'`;
on the first `'.'` the extension is the suffix from there on.  Returns
the extension length (dot included). -/
def extLenRev : List Char → Option Nat
  | [] => none
  | c :: rest =>
    if c = '/' then none
    else if c = '.' then some 1
    else (extLenRev rest).map (fun k => k + 1)

/-- The length of Go `path.Ext` of a path, `0` when there is no
extension. -/
def extLen (p : List Char) : Nat := (extLenRev p.reverse).getD 0

/-- Go `path.Ext`: the suffix of the path starting at the final dot of
its final slash-separated element, empty when there is none. -/
def pathExt (p : List Char) : List Char := p.drop (p.length - extLen p)

/-- The array identifier `main` computes:
`args[0][:len(args[0]) - len(path.Ext(args[0]))]`, i.e. the whole input
path with its extension cut off. -/
def arrayName (p : List Char) : List Char := p.take (p.length - extLen p)

/-- The whole conversion on an already-opened input: header parsing and
validation (`parsePhase`), then the array-literal emission.  Returns the
standard-output items in emission order together with the failure, if
any.  The header line is printed before the sample loop starts and the
closing `};` only after the loop completes, exactly as in `main`; the
per-frame channel discard count is `int16(NumChannels - 1)` clamped to
zero iterations when non-positive. -/
def runConvert (applyDither : Bool) (inputPath : List Char) (file : List Nat)
    (noise : Nat → ℚ) : List OutItem × Option Err :=
  match parsePhase file with
  | Except.error e => ([], some e)
  | Except.ok (nc, frames, ss, sdata) =>
    let skipCh := (wrap16 (nc - 1)).toNat
    let body := sampleLoop applyDither ss skipCh noise frames sdata dInit 0
    match body.2 with
    | some e => (OutItem.headerLine (arrayName inputPath) :: body.1, some e)
    | none =>
      (OutItem.headerLine (arrayName inputPath) :: (body.1 ++ [OutItem.close]),
       none)

/-- Specification-side formula of claim C1 (follows the claim's words,
for comparison with the code): `clamp(floor(s/256.0 + 128.0 + 0.5), 0,
255)`, a round-half-up before clamping. -/
def noDitherSpecRound (s : Int) : Int :=
  max 0 (min 255 ⌊(s : ℚ) / 256 + 128 + 1/2⌋)

/-- Truncating reduction formula: `clamp(floor(s/256.0 + 128.0), 0,
255)`; this is the amended form of claim C1, with no half-up rounding. -/
def noDitherSpecTrunc (s : Int) : Int :=
  max 0 (min 255 ⌊(s : ℚ) / 256 + 128⌋)

/-- Specification-side base name (follows the spec's words, modelling Go
`path.Base` for comparison with the code): strip trailing slashes, keep
the last slash-separated element; `"."` for an empty path, `"/"` for an
all-slash path. -/
def pathBase (p : List Char) : List Char :=
  let r := p.reverse.dropWhile (fun c => c == '/')
  let b := (r.takeWhile (fun c => !(c == '/'))).reverse
  if b = [] then (if p = [] then ['.'] else ['/']) else b

/-- Specification-side identifier of claim C9 (follows the claim's
words): the input path's base name with its extension stripped. -/
def specIdentifier (p : List Char) : List Char :=
  let b := pathBase p
  b.take (b.length - extLen b)

/-- Boolean check that an output item is a value in the byte range (the
non-value items pass trivially). -/
def itemOk : OutItem → Bool
  | OutItem.num n => decide (n ≤ 255)
  | _ => true

/-- A short input path used by the concrete runs; its array name is
`x`. -/
def exPath : List Char := ['x', '.', 'a']

/-- A valid 1-channel 16-bit AIFF file with one frame whose sample is
`+128` (bytes `00 80`). -/
def exFile16 : List Nat :=
  formTag ++ [0, 0, 0, 0] ++ aiffTag
    ++ commTag ++ [0, 0, 0, 18]
    ++ [0, 1] ++ [0, 0, 0, 1] ++ [0, 16] ++ [0, 0, 0, 0, 0, 0, 0, 0, 0, 0]
    ++ ssndTag ++ [0, 0, 0, 10] ++ [0, 0, 0, 0] ++ [0, 0, 0, 0] ++ [0, 128]

/-- A valid 1-channel 16-bit AIFF file with one frame whose sample is
`0`. -/
def exFileZero : List Nat :=
  formTag ++ [0, 0, 0, 0] ++ aiffTag
    ++ commTag ++ [0, 0, 0, 18]
    ++ [0, 1] ++ [0, 0, 0, 1] ++ [0, 16] ++ [0, 0, 0, 0, 0, 0, 0, 0, 0, 0]
    ++ ssndTag ++ [0, 0, 0, 10] ++ [0, 0, 0, 0] ++ [0, 0, 0, 0] ++ [0, 0]

/-- A valid 2-channel 16-bit AIFF file with two frames: channel-0
samples `+256` (bytes `01 00`) and `-256` (bytes `FF 00`), channel-1
samples zero. -/
def exFileTwoCh : List Nat :=
  formTag ++ [0, 0, 0, 0] ++ aiffTag
    ++ commTag ++ [0, 0, 0, 18]
    ++ [0, 2] ++ [0, 0, 0, 2] ++ [0, 16] ++ [0, 0, 0, 0, 0, 0, 0, 0, 0, 0]
    ++ ssndTag ++ [0, 0, 0, 10] ++ [0, 0, 0, 0] ++ [0, 0, 0, 0]
    ++ [1, 0] ++ [0, 0] ++ [255, 0] ++ [0, 0]

/-- A truncated 1-channel 16-bit AIFF file: the header declares two
frames but the sound data holds a single sample (`+128`), so the second
loop iteration hits end of stream. -/
def exFileShort : List Nat :=
  formTag ++ [0, 0, 0, 0] ++ aiffTag
    ++ commTag ++ [0, 0, 0, 18]
    ++ [0, 1] ++ [0, 0, 0, 2] ++ [0, 16] ++ [0, 0, 0, 0, 0, 0, 0, 0, 0, 0]
    ++ ssndTag ++ [0, 0, 0, 10] ++ [0, 0, 0, 0] ++ [0, 0, 0, 0] ++ [0, 128]

/-- An AIFC file, fully valid except that its compression type tag is
`NONE` (with an empty padded compression name). -/
def exFileNone : List Nat :=
  formTag ++ [0, 0, 0, 0] ++ aifcTag
    ++ commTag ++ [0, 0, 0, 23]
    ++ [0, 1] ++ [0, 0, 0, 1] ++ [0, 16] ++ [0, 0, 0, 0, 0, 0, 0, 0, 0, 0]
    ++ noneTag ++ [0] ++ [0]
    ++ ssndTag ++ [0, 0, 0, 10] ++ [0, 0, 0, 0] ++ [0, 0, 0, 0] ++ [0, 128]

/-- The same AIFC file as `exFileNone` with the compression type tag
`raw ` instead. -/
def exFileRaw : List Nat :=
  formTag ++ [0, 0, 0, 0] ++ aifcTag
    ++ commTag ++ [0, 0, 0, 23]
    ++ [0, 1] ++ [0, 0, 0, 1] ++ [0, 16] ++ [0, 0, 0, 0, 0, 0, 0, 0, 0, 0]
    ++ rawTag ++ [0] ++ [0]
    ++ ssndTag ++ [0, 0, 0, 10] ++ [0, 0, 0, 0] ++ [0, 0, 0, 0] ++ [0, 128]

/-- A stream starting with an unrelated `COMM` chunk of declared size 5
(6 padded payload bytes `9,9,9,9,9,9`), followed by an `SSND` header. -/
def scanEx : List Nat :=
  commTag ++ [0, 0, 0, 5] ++ [9, 9, 9, 9, 9, 9] ++ ssndTag ++ [0, 0, 0, 0]

/-- The two-component path `dir/foo.aiff` of the C9 scenario. -/
def exPath9 : List Char := ['d', 'i', 'r', '/', 'f', 'o', 'o', '.', 'a', 'i', 'f', 'f']

/-- Closed integer form of the no-dither reduction on the int16 range:
saturating at the top of the range and flooring are together the
euclidean division `(v + 32768) / 256`. -/
theorem reduceNoDither_eq (v : Int) (h1 : -32768 ≤ v) (h2 : v ≤ 32767) :
    reduceNoDither v = ((v + 32768) / 256).toNat := by
  have hq : sampleToQ v = ((v : ℚ) + 32768) / 256 := by
    unfold sampleToQ; ring
  have hfl : ⌊((v : ℚ) + 32768) / 256⌋ = (v + 32768) / 256 := by
    have h0 := Rat.floor_intCast_div_natCast (v + 32768) 256
    push_cast at h0
    exact h0
  unfold reduceNoDither goUint16 filter
  rw [hq]
  by_cases hbig : (255 : ℚ) < ((v : ℚ) + 32768) / 256
  · have hv : (65280 : Int) < v + 32768 := by
      rw [lt_div_iff₀ (by norm_num : (0:ℚ) < 256)] at hbig
      norm_num at hbig
      exact_mod_cast hbig
    have hdiv : (v + 32768) / 256 = 255 := by omega
    simp [hbig, hdiv]
  · have hpos : (0 : ℚ) ≤ ((v : ℚ) + 32768) / 256 := by
      apply div_nonneg _ (by norm_num)
      have : (0 : Int) ≤ v + 32768 := by omega
      exact_mod_cast this
    have hneg : ¬ (((v : ℚ) + 32768) / 256 < 0) := not_lt.mpr hpos
    simp [hbig, hneg, hfl]

/-- The printed value of the 16-bit path never exceeds 255: `filter`
clamps into `[0, 255]` and the `uint16` conversion floors. -/
theorem goUint16_filter_le (q : ℚ) : goUint16 (filter q) ≤ 255 := by
  unfold goUint16 filter
  by_cases hbig : (255 : ℚ) < q
  · simp [hbig]
  · by_cases hneg : q < 0
    · simp [hbig, hneg]
    · have hle : ⌊q⌋ ≤ 255 := by
        have := Int.floor_le_floor (not_lt.mp hbig)
        simpa using this
      simp [hbig, hneg, Int.toNat_le.mpr hle]

/-- The no-dither reduction never exceeds 255. -/
theorem reduceNoDither_le (v : Int) : reduceNoDither v ≤ 255 :=
  goUint16_filter_le (sampleToQ v)

/-- The stream returned by a successful chunk scan consists of bytes of
the scanned stream. -/
theorem scanChunk_subset (tag : List Nat) :
    ∀ (n : Nat) (s r : List Nat), s.length ≤ n → scanChunk tag s = some r → r ⊆ s := by
  intro n
  induction n with
  | zero =>
    intro s r hlen hscan
    rw [scanChunk] at hscan
    have : ¬ (8 ≤ s.length) := by omega
    simp [this] at hscan
  | succ n ih =>
    intro s r hlen hscan
    rw [scanChunk] at hscan
    by_cases h8 : 8 ≤ s.length
    · simp only [h8, dif_pos] at hscan
      by_cases ht : s.take 4 = tag
      · simp only [ht, if_pos] at hscan
        cases hscan
        exact List.drop_subset 8 s
      · simp only [ht, if_neg, not_false_iff] at hscan
        have hsub := ih _ r ?_ hscan
        · exact hsub.trans ((List.drop_subset _ _).trans (List.drop_subset 8 s))
        · simp only [skipBytes, List.length_drop]
          omega
    · simp [h8] at hscan

/-- The sample loop never emits the closing brace: that item is appended
by `runConvert` only after the loop finishes without error. -/
theorem sampleLoop_not_close (d : Bool) (ss skipCh : Nat) (noise : Nat → ℚ) :
    ∀ (rem : Nat) (s : List Nat) (st : DState) (nIdx : Nat),
      OutItem.close ∉ (sampleLoop d ss skipCh noise rem s st nIdx).1 := by
  intro rem
  induction rem with
  | zero => intro s st nIdx; simp [sampleLoop]
  | succ n ih =>
    intro s st nIdx
    match s with
    | [] => simp [sampleLoop]
    | b1 :: s1 =>
      by_cases h8 : ss = 8
      · subst h8
        rcases Nat.eq_zero_or_pos n with hn | hn
        · subst hn; simp [sampleLoop, ih]
        · simp [sampleLoop, hn, ih]
      · by_cases h16 : ss = 16
        · subst h16
          match s1 with
          | [] => simp [sampleLoop]
          | b2 :: s2 =>
            by_cases hd : d = true
            · subst hd
              rcases Nat.eq_zero_or_pos n with hn | hn
              · subst hn; simp [sampleLoop, ih]
              · simp [sampleLoop, hn, ih]
            · simp only [Bool.not_eq_true] at hd
              subst hd
              rcases Nat.eq_zero_or_pos n with hn | hn
              · subst hn; simp [sampleLoop, ih]
              · simp [sampleLoop, hn, ih]
        · rcases Nat.eq_zero_or_pos n with hn | hn
          · subst hn; simp [sampleLoop, h8, h16, ih]
          · simp [sampleLoop, h8, h16, hn, ih]

/-- Every decimal value the sample loop emits is at most 255, provided
the stream holds genuine bytes. -/
theorem sampleLoop_num_le (d : Bool) (ss skipCh : Nat) (noise : Nat → ℚ) :
    ∀ (rem : Nat) (s : List Nat) (st : DState) (nIdx : Nat),
      (∀ b ∈ s, b < 256) →
      ∀ k, OutItem.num k ∈ (sampleLoop d ss skipCh noise rem s st nIdx).1 → k ≤ 255 := by
  intro rem
  induction rem with
  | zero => intro s st nIdx hb k hk; simp [sampleLoop] at hk
  | succ n ih =>
    intro s st nIdx hb k hk
    match s with
    | [] => simp [sampleLoop] at hk
    | b1 :: s1 =>
      have hb1 : b1 < 256 := hb b1 (List.mem_cons_self b1 s1)
      have hbs1 : ∀ b ∈ s1, b < 256 := fun b hbmem => hb b (List.mem_cons_of_mem _ hbmem)
      have hdrop1 : ∀ m, ∀ b ∈ s1.drop m, b < 256 :=
        fun m b hm => hbs1 b (List.drop_subset _ _ hm)
      by_cases h8 : ss = 8
      · subst h8
        rcases Nat.eq_zero_or_pos n with hn | hn
        · subst hn
          simp [sampleLoop] at hk
          omega
        · simp [sampleLoop, hn] at hk
          rcases hk with hk | hk
          · omega
          · exact ih _ st nIdx (hdrop1 _) k hk
      · by_cases h16 : ss = 16
        · subst h16
          match s1 with
          | [] => simp [sampleLoop] at hk
          | b2 :: s2 =>
            have hdrop2 : ∀ m, ∀ b ∈ s2.drop m, b < 256 :=
              fun m b hm => hbs1 b (List.mem_cons_of_mem _ (List.drop_subset _ _ hm))
            by_cases hd : d = true
            · subst hd
              rcases Nat.eq_zero_or_pos n with hn | hn
              · subst hn
                simp [sampleLoop] at hk
                subst hk
                exact goUint16_filter_le _
              · simp [sampleLoop, hn] at hk
                rcases hk with hk | hk
                · subst hk; exact goUint16_filter_le _
                · exact ih _ _ _ (hdrop2 _) k hk
            · simp only [Bool.not_eq_true] at hd
              subst hd
              rcases Nat.eq_zero_or_pos n with hn | hn
              · subst hn
                simp [sampleLoop] at hk
                subst hk
                exact reduceNoDither_le _
              · simp [sampleLoop, hn] at hk
                rcases hk with hk | hk
                · subst hk; exact reduceNoDither_le _
                · exact ih _ _ _ (hdrop2 _) k hk
        · rcases Nat.eq_zero_or_pos n with hn | hn
          · subst hn
            simp [sampleLoop, h8, h16] at hk
          · simp [sampleLoop, h8, h16, hn] at hk
            exact ih _ st nIdx (hdrop1 _) k hk

/-- The sample loop does not depend on the pseudo-random stream, because
every `dither` call it makes passes `addNoise = false`. -/
theorem sampleLoop_noise_irrel (d : Bool) (ss skipCh : Nat) (n1 n2 : Nat → ℚ) :
    ∀ (rem : Nat) (s : List Nat) (st : DState) (nIdx : Nat),
      sampleLoop d ss skipCh n1 rem s st nIdx = sampleLoop d ss skipCh n2 rem s st nIdx := by
  intro rem
  induction rem with
  | zero => intro s st nIdx; simp [sampleLoop]
  | succ n ih =>
    intro s st nIdx
    match s with
    | [] => simp [sampleLoop]
    | b1 :: s1 =>
      have hstep : ∀ (st : DState) (v : ℚ) (m : Nat),
          ditherStep st v false n1 m = ditherStep st v false n2 m := fun _ _ _ => rfl
      by_cases h8 : ss = 8
      · subst h8; simp [sampleLoop, ih]
      · by_cases h16 : ss = 16
        · subst h16
          match s1 with
          | [] => simp [sampleLoop]
          | b2 :: s2 =>
            by_cases hd : d = true
            · subst hd; simp [sampleLoop, ih, hstep]
            · simp only [Bool.not_eq_true] at hd
              subst hd; simp [sampleLoop, ih]
        · simp [sampleLoop, h8, h16, ih]

/-- A successful FORM header parse leaves a sub-stream of the file. -/
theorem parseForm_subset (file : List Nat) (b : Bool) (s1 : List Nat)
    (h : parseForm file = Except.ok (b, s1)) : s1 ⊆ file := by
  unfold parseForm at h
  split at h
  · split at h
    · cases h
    · split at h
      · cases h
      · simp only [Except.ok.injEq, Prod.mk.injEq] at h
        rw [← h.2]
        exact List.drop_subset 12 file
  · cases h

/-- A successful COMM read leaves a sub-stream of its input. -/
theorem readCommon_subset (s : List Nat) (c : Int × Nat × Nat) (r : List Nat)
    (h : readCommon s = some (c, r)) : r ⊆ s := by
  unfold readCommon at h
  split at h
  · simp only [Option.some.injEq, Prod.mk.injEq] at h
    rw [← h.2]
    exact List.drop_subset 18 s
  · cases h

/-- A successful compression step leaves a sub-stream of its input. -/
theorem compressionStep_subset (s r : List Nat)
    (h : compressionStep s = Except.ok r) : r ⊆ s := by
  unfold compressionStep at h
  split at h
  · split at h
    · cases h
    · simp only [Except.ok.injEq] at h
      rw [← h]
      exact ((List.drop_subset _ _).trans (List.drop_subset 5 s))
  · cases h

/-- A successful SSND header read leaves a sub-stream of its input. -/
theorem readSsnd_subset (s : List Nat) (c : Nat × Nat) (r : List Nat)
    (h : readSsnd s = some (c, r)) : r ⊆ s := by
  unfold readSsnd at h
  split at h
  · simp only [Option.some.injEq, Prod.mk.injEq] at h
    rw [← h.2]
    exact List.drop_subset 8 s
  · cases h

/-- The sound-data stream a successful parse returns consists of bytes
of the input file. -/
theorem parsePhase_ok_subset (file : List Nat) (nc : Int) (fr ss : Nat) (sdata : List Nat)
    (h : parsePhase file = Except.ok (nc, fr, ss, sdata)) : sdata ⊆ file := by
  unfold parsePhase at h
  cases hpf : parseForm file with
  | error e => rw [hpf] at h; cases h
  | ok p =>
    obtain ⟨hasComp, s1⟩ := p
    rw [hpf] at h
    dsimp only at h
    have hs1 : s1 ⊆ file := parseForm_subset file hasComp s1 hpf
    cases hsc : scanChunk commTag s1 with
    | none => rw [hsc] at h; cases h
    | some s2 =>
      rw [hsc] at h
      dsimp only at h
      have hs2 : s2 ⊆ s1 := scanChunk_subset commTag s1.length s1 s2 le_rfl hsc
      cases hrc : readCommon s2 with
      | none => rw [hrc] at h; cases h
      | some p2 =>
        obtain ⟨⟨nc2, fr2, ss2⟩, s3⟩ := p2
        rw [hrc] at h
        dsimp only at h
        have hs3 : s3 ⊆ s2 := readCommon_subset s2 _ s3 hrc
        cases hcs : (if hasComp then compressionStep s3 else Except.ok s3) with
        | error e => rw [hcs] at h; cases h
        | ok s4 =>
          rw [hcs] at h
          dsimp only at h
          have hs4 : s4 ⊆ s3 := by
            cases hasComp with
            | false =>
              simp only [if_neg Bool.false_ne_true] at hcs
              cases hcs
              exact fun x hx => hx
            | true =>
              simp only [if_pos] at hcs
              exact compressionStep_subset s3 s4 hcs
          split at h
          · cases h
          · cases hsc2 : scanChunk ssndTag s4 with
            | none => rw [hsc2] at h; cases h
            | some s5 =>
              rw [hsc2] at h
              dsimp only at h
              have hs5 : s5 ⊆ s4 := scanChunk_subset ssndTag s4.length s4 s5 le_rfl hsc2
              cases hrs : readSsnd s5 with
              | none => rw [hrs] at h; cases h
              | some p3 =>
                obtain ⟨⟨off, blk⟩, s6⟩ := p3
                rw [hrs] at h
                dsimp only at h
                have hs6 : s6 ⊆ s5 := readSsnd_subset s5 _ s6 hrs
                split at h
                · cases h
                · simp only [Except.ok.injEq, Prod.mk.injEq] at h
                  rw [← h.2.2.2]
                  exact hs6.trans (hs5.trans (hs4.trans (hs3.trans (hs2.trans hs1))))

/-- A failure before the sample loop produces no standard output at
all. -/
theorem runConvert_parse_error (d : Bool) (p : List Char) (file : List Nat)
    (noise : Nat → ℚ) (e : Err) (h : parsePhase file = Except.error e) :
    runConvert d p file noise = ([], some e) := by
  unfold runConvert
  rw [h]

/-- Structure of the whole run: either the parse fails and nothing is
printed, or the output is the header line, the loop's items, and the
closing brace exactly when the loop finished without error. -/
theorem runConvert_shape (d : Bool) (p : List Char) (file : List Nat) (noise : Nat → ℚ) :
    (∃ e, parsePhase file = Except.error e ∧ runConvert d p file noise = ([], some e)) ∨
    (∃ nc fr ss sdata, parsePhase file = Except.ok (nc, fr, ss, sdata) ∧
      runConvert d p file noise =
        (OutItem.headerLine (arrayName p) ::
          ((sampleLoop d ss ((wrap16 (nc - 1)).toNat) noise fr sdata dInit 0).1 ++
            (if (sampleLoop d ss ((wrap16 (nc - 1)).toNat) noise fr sdata dInit 0).2 = none
             then [OutItem.close] else [])),
         (sampleLoop d ss ((wrap16 (nc - 1)).toNat) noise fr sdata dInit 0).2)) := by
  cases hp : parsePhase file with
  | error e =>
    exact Or.inl ⟨e, rfl, runConvert_parse_error d p file noise e hp⟩
  | ok q =>
    obtain ⟨nc, fr, ss, sdata⟩ := q
    refine Or.inr ⟨nc, fr, ss, sdata, rfl, ?_⟩
    unfold runConvert
    rw [hp]
    dsimp only
    cases hb : (sampleLoop d ss ((wrap16 (nc - 1)).toNat) noise fr sdata dInit 0).2 with
    | none => simp [hb]
    | some e => simp [hb]

/-- Claim C1 (counterexample): for the 16-bit sample `+128`, processed
with dithering disabled, the emitted byte is `128`, while the claimed
formula `clamp(floor(s/256.0 + 128.0 + 0.5), 0, 255)` gives `129`: the
no-dither path truncates (`uint16` conversion), it does not round with
`floor(x + 0.5)`. -/
theorem C1_counterexample :
    runConvert false exPath exFile16 (fun _ => 0) =
      ([OutItem.headerLine ['x'], OutItem.num 128, OutItem.close], none) ∧
    noDitherSpecRound 128 = 129 ∧ (128 : Nat) ≠ 129 := by
  refine ⟨?_, ?_, by decide⟩
  · have h1 : reduceNoDither 128 = 128 := by
      rw [reduceNoDither_eq 128 (by norm_num) (by norm_num)]
      decide
    have hp : parsePhase exFile16 = Except.ok (1, 1, 16, [0, 128]) := by
      simp [parsePhase, parseForm, scanChunk, readCommon, readSsnd, exFile16,
        formTag, aiffTag, aifcTag, commTag, ssndTag, beI16, beU16, beU32, toSigned]
    rw [runConvert, hp]
    simp [sampleLoop, wrap16, arrayName, extLen, extLenRev, exPath,
      beI16, beU16, toSigned, h1]
  · norm_num [noDitherSpecRound]

/-- Claim C1 (amended): for every 16-bit sample `s` processed with
dithering disabled, the emitted byte equals
`clamp(floor(s/256.0 + 128.0), 0, 255)` — truncation before clamping,
with no `+ 0.5` rounding step. -/
theorem C1_amended (v : Int) (h1 : -32768 ≤ v) (h2 : v ≤ 32767) :
    (reduceNoDither v : Int) = noDitherSpecTrunc v := by
  have hq : (v : ℚ) / 256 + 128 = ((v : ℚ) + 32768) / 256 := by ring
  have hfl : ⌊((v : ℚ) + 32768) / 256⌋ = (v + 32768) / 256 := by
    have h0 := Rat.floor_intCast_div_natCast (v + 32768) 256
    push_cast at h0
    exact h0
  rw [reduceNoDither_eq v h1 h2]
  unfold noDitherSpecTrunc
  rw [hq, hfl]
  omega

/-- Witness for C1 (amended) at the sample `300`. -/
theorem C1_amended_witness :
    ((-32768 : Int) ≤ 300 ∧ (300 : Int) ≤ 32767) ∧
    (reduceNoDither 300 : Int) = noDitherSpecTrunc 300 :=
  ⟨⟨by norm_num, by norm_num⟩, C1_amended 300 (by norm_num) (by norm_num)⟩

/-- Claim C2 (counterexample): a dither-enabled run on the single 16-bit
sample `0` with pseudo-random draws of `3/10` each emits `128`, which is
`round(xe)`; the claimed quantity `round(xe + noise)` would be `129`.
The noise term is never added, because `main` passes `addNoise = false`
to `dither`. -/
theorem C2_counterexample :
    runConvert true exPath exFileZero (fun _ => 3/10) =
      ([OutItem.headerLine ['x'], OutItem.num 128, OutItem.close], none) ∧
    round (ditherXe dInit (sampleToQ (beI16 0 0)) + (3/10 + 3/10)) = 129 := by
  have hxe : ditherXe dInit (sampleToQ (beI16 0 0)) = 128 := by
    norm_num [ditherXe, bufAt, dInit, SHAPED_BS, sampleToQ, beI16, beU16, toSigned,
      List.replicate, round]
  constructor
  · have hstep : (ditherStep dInit (sampleToQ (beI16 0 0)) false (fun _ => 3/10) 0).1
        = 128 := by
      simp [ditherStep, hxe]
      norm_num [round]
    have hval : goUint16 (filter ((ditherStep dInit (sampleToQ (beI16 0 0)) false
        (fun _ => 3/10) 0).1)) = 128 := by
      rw [hstep]
      norm_num [goUint16, filter]
      decide
    have hp : parsePhase exFileZero = Except.ok (1, 1, 16, [0, 0]) := by
      simp [parsePhase, parseForm, scanChunk, readCommon, readSsnd, exFileZero,
        formTag, aiffTag, aifcTag, commTag, ssndTag, beI16, beU16, beU32, toSigned]
    rw [runConvert, hp]
    simp [sampleLoop, wrap16, arrayName, extLen, extLenRev, exPath, hval]
  · rw [hxe]
    norm_num [round]

/-- Claim C2 (amended): `main` invokes the dither routine with noise
addition disabled, so the quantity that gets rounded is exactly the
error-fed-back value `xe` — `round(xe)`, with no noise term — and no
pseudo-random draw is consumed. -/
theorem C2_amended (st : DState) (v : ℚ) (noise : Nat → ℚ) (nIdx : Nat) :
    (ditherStep st v false noise nIdx).1 = round (ditherXe st v) ∧
    (ditherStep st v false noise nIdx).2.2 = nIdx :=
  ⟨rfl, rfl⟩

/-- Claim C3: evaluation of the code on the claimed scenario (2-channel
16-bit, channel-0 samples `+256` and `-256`, channel-1 samples zero).
The code discards only one byte per extra channel — not one sample — so
the second frame reads the misaligned bytes `00 FF` and the output is
`129, 128`, not the `129, 127` the claim (and the code's own
keep-first-channel intent) requires. -/
theorem C3_code_behavior :
    runConvert false exPath exFileTwoCh (fun _ => 0) =
      ([OutItem.headerLine ['x'], OutItem.num 129, OutItem.comma, OutItem.num 128,
        OutItem.close], none) := by
  have h1 : reduceNoDither 256 = 129 := by
    rw [reduceNoDither_eq 256 (by norm_num) (by norm_num)]
    decide
  have h2 : reduceNoDither 255 = 128 := by
    rw [reduceNoDither_eq 255 (by norm_num) (by norm_num)]
    decide
  have hp : parsePhase exFileTwoCh =
      Except.ok (2, 2, 16, [1, 0, 0, 0, 255, 0, 0, 0]) := by
    simp [parsePhase, parseForm, scanChunk, readCommon, readSsnd, exFileTwoCh,
      formTag, aiffTag, aifcTag, commTag, ssndTag, beI16, beU16, beU32, toSigned]
  have hskip : (wrap16 1).toNat = 1 := by decide
  rw [runConvert, hp]
  simp [sampleLoop, hskip, arrayName, extLen, extLenRev, exPath,
    beI16, beU16, toSigned, h1, h2]

/-- Claim C4 (counterexample): on a file that declares two frames but
holds only one sample, the run fails with a read error after having
already written the header line, the first value and a separator to
standard output — the output is neither empty nor the full array
literal. -/
theorem C4_counterexample :
    runConvert false exPath exFileShort (fun _ => 0) =
      ([OutItem.headerLine ['x'], OutItem.num 128, OutItem.comma], some Err.readErr) ∧
    (runConvert false exPath exFileShort (fun _ => 0)).1 ≠ [] := by
  have h1 : reduceNoDither 128 = 128 := by
    rw [reduceNoDither_eq 128 (by norm_num) (by norm_num)]
    decide
  have hp : parsePhase exFileShort = Except.ok (1, 2, 16, [0, 128]) := by
    simp [parsePhase, parseForm, scanChunk, readCommon, readSsnd, exFileShort,
      formTag, aiffTag, aifcTag, commTag, ssndTag, beI16, beU16, beU32, toSigned]
  have hrun : runConvert false exPath exFileShort (fun _ => 0) =
      ([OutItem.headerLine ['x'], OutItem.num 128, OutItem.comma], some Err.readErr) := by
    rw [runConvert, hp]
    simp [sampleLoop, wrap16, arrayName, extLen, extLenRev, exPath,
      beI16, beU16, toSigned, h1]
  exact ⟨hrun, by rw [hrun]; simp⟩

/-- Claim C4 (amended): a failure detected before the sample loop (any
header parse or validation error) produces no standard output; a failure
during the sample loop leaves the partial array text written so far, and
the closing brace is never emitted on any failing run — so a failing run
never produces the full array literal. -/
theorem C4_amended (d : Bool) (p : List Char) (file : List Nat) (noise : Nat → ℚ) :
    (∀ e, parsePhase file = Except.error e → runConvert d p file noise = ([], some e)) ∧
    (∀ e, (runConvert d p file noise).2 = some e →
      OutItem.close ∉ (runConvert d p file noise).1) := by
  constructor
  · exact fun e he => runConvert_parse_error d p file noise e he
  · intro e he
    rcases runConvert_shape d p file noise with ⟨e2, hp, hr⟩ |
      ⟨nc, fr, ss, sdata, hp, hr⟩
    · rw [hr]
      simp
    · rw [hr] at he ⊢
      simp only at he
      rw [he]
      simp only [List.mem_cons, List.mem_append]
      push_neg
      refine ⟨by simp, sampleLoop_not_close d ss _ noise fr sdata dInit 0, ?_⟩
      simp [he]

/-- Witness for C4 (amended): a one-byte file fails its very first
header read and produces no standard output. -/
theorem C4_amended_witness :
    parsePhase [0] = Except.error Err.readErr ∧
    runConvert false [] [0] (fun _ => 0) = ([], some Err.readErr) :=
  ⟨by simp [parsePhase, parseForm],
   (C4_amended false [] [0] (fun _ => 0)).1 Err.readErr (by simp [parsePhase, parseForm])⟩

/-- Claim C5 (counterexample): the AIFC file with compression tag `NONE`
(and everything else valid) fails with the raw-PCM error and produces no
output, while the identical file with tag `raw ` converts successfully —
so acceptance is not "`NONE` or `raw `" as claimed, but `raw ` only. -/
theorem C5_counterexample :
    runConvert false exPath exFileNone (fun _ => 0) = ([], some Err.notRawPcm) ∧
    runConvert false exPath exFileRaw (fun _ => 0) =
      ([OutItem.headerLine ['x'], OutItem.num 128, OutItem.close], none) := by
  constructor
  · apply runConvert_parse_error
    simp [parsePhase, parseForm, scanChunk, readCommon, readSsnd, compressionStep,
      paddedStringSize, skipBytes, exFileNone, formTag, aiffTag, aifcTag, commTag,
      ssndTag, rawTag, noneTag, beI16, beU16, beU32, toSigned]
  · have h1 : reduceNoDither 128 = 128 := by
      rw [reduceNoDither_eq 128 (by norm_num) (by norm_num)]
      decide
    have hpad : paddedStringSize 0 = 2 := by decide
    have hp : parsePhase exFileRaw = Except.ok (1, 1, 16, [0, 128]) := by
      simp [parsePhase, parseForm, scanChunk, readCommon, readSsnd, compressionStep,
        hpad, skipBytes, exFileRaw, formTag, aiffTag, aifcTag, commTag,
        ssndTag, rawTag, beI16, beU16, beU32, toSigned]
    rw [runConvert, hp]
    simp [sampleLoop, wrap16, arrayName, extLen, extLenRev, exPath,
      beI16, beU16, toSigned, h1]

/-- Claim C5 (amended): the compression validation succeeds exactly when
the 5-byte compression header is present and its type tag is `raw `;
every other tag — `NONE` included — is rejected. -/
theorem C5_amended (s : List Nat) :
    (compressionStep s).isOk = true ↔ (s.take 4 = rawTag ∧ 5 ≤ s.length) := by
  constructor
  · intro h
    unfold compressionStep at h
    split at h
    · split at h
      · cases h
      · next h5 htag =>
        push_neg at htag
        exact ⟨htag, h5⟩
    · cases h
  · rintro ⟨htag, h5⟩
    unfold compressionStep
    rw [if_pos h5]
    simp [htag, Except.isOk, Except.toBool]

/-- Witness for C5 (amended): the 5-byte header `raw `, name size 0, is
accepted. -/
theorem C5_amended_witness :
    (compressionStep [114, 97, 119, 32, 0]).isOk = true :=
  (C5_amended [114, 97, 119, 32, 0]).mpr ⟨by decide, by decide⟩

/-- Claim C6: every value the converter prints lies in `[0, 255]` (the
values are naturals, so only the upper bound is substantive), for 8-bit
and 16-bit input alike, dithered or not, provided the input stream holds
genuine bytes. -/
theorem C6_output_range (d : Bool) (p : List Char) (file : List Nat) (noise : Nat → ℚ)
    (hb : file.all (fun b => decide (b < 256)) = true) :
    ((runConvert d p file noise).1.all itemOk) = true := by
  have hbm : ∀ b ∈ file, b < 256 := by
    intro b hmem
    exact of_decide_eq_true (List.all_eq_true.mp hb b hmem)
  rw [List.all_eq_true]
  intro x hx
  rcases runConvert_shape d p file noise with ⟨e, hp, hr⟩ |
    ⟨nc, fr, ss, sdata, hp, hr⟩
  · rw [hr] at hx
    simp at hx
  · rw [hr] at hx
    simp only [List.mem_cons, List.mem_append] at hx
    rcases hx with hx | hx | hx
    · subst hx; rfl
    · match x with
      | OutItem.headerLine nm => rfl
      | OutItem.comma => rfl
      | OutItem.close => rfl
      | OutItem.num k =>
        have hsub : sdata ⊆ file := parsePhase_ok_subset file nc fr ss sdata hp
        have hk : k ≤ 255 :=
          sampleLoop_num_le d ss _ noise fr sdata dInit 0
            (fun b hm => hbm b (hsub hm)) k hx
        simp [itemOk, hk]
    · match x with
      | OutItem.headerLine nm => rfl
      | OutItem.comma => rfl
      | OutItem.close => rfl
      | OutItem.num k =>
        by_cases hcl : (sampleLoop d ss ((wrap16 (nc - 1)).toNat) noise fr sdata dInit 0).2
            = none <;> simp [hcl] at hx

/-- Witness for C6 on a concrete valid 16-bit file. -/
theorem C6_witness :
    (exFile16.all (fun b => decide (b < 256)) = true) ∧
    ((runConvert false exPath exFile16 (fun _ => 0)).1.all itemOk) = true :=
  ⟨by decide, C6_output_range false exPath exFile16 (fun _ => 0) (by decide)⟩

/-- Claim C7: when the current chunk's tag does not match, the scanner
skips exactly `padSize size = (size + 1) &^ 1` payload bytes — the
declared size rounded up to even — before reading the next header; in
particular a chunk declaring size 5 has `padSize 5 = 6` bytes skipped. -/
theorem C7_scan_skip (tag s : List Nat) (h8 : 8 ≤ s.length) (hne : s.take 4 ≠ tag) :
    scanChunk tag s =
      scanChunk tag (skipBytes (s.drop 8)
        (padSize (beI32 (s.getD 4 0) (s.getD 5 0) (s.getD 6 0) (s.getD 7 0)))) ∧
    padSize 5 = 6 := by
  constructor
  · rw [scanChunk]
    simp [h8, hne]
  · decide

/-- Witness for C7: scanning for `SSND` past an unrelated `COMM` chunk
of declared size 5. -/
theorem C7_scan_witness :
    (8 ≤ scanEx.length ∧ scanEx.take 4 ≠ ssndTag) ∧
    (scanChunk ssndTag scanEx =
      scanChunk ssndTag (skipBytes (scanEx.drop 8)
        (padSize (beI32 (scanEx.getD 4 0) (scanEx.getD 5 0) (scanEx.getD 6 0)
          (scanEx.getD 7 0)))) ∧
     padSize 5 = 6) :=
  ⟨⟨by decide, by decide⟩, C7_scan_skip ssndTag scanEx (by decide) (by decide)⟩

/-- Claim C9 (counterexample): for the input path `dir/foo.aiff` the
code's identifier is `dir/foo` (the whole path with the extension cut),
not the base name `foo` the claim describes. -/
theorem C9_counterexample :
    arrayName exPath9 = ['d', 'i', 'r', '/', 'f', 'o', 'o'] ∧
    specIdentifier exPath9 = ['f', 'o', 'o'] ∧
    arrayName exPath9 ≠ specIdentifier exPath9 :=
  ⟨by decide, by decide, by decide⟩

/-- Claim C9 (amended): the identifier used in the emitted array literal
is the input path with its extension stripped — the leading directories
are kept: identifier ++ extension reassembles the path. -/
theorem C9_amended (p : List Char) : arrayName p ++ pathExt p = p :=
  List.take_append_drop _ p

/-- Claim C10: with the dither flag enabled the emitted output is a
deterministic function of the input: the dither routine is always
invoked with `addNoise = false`, so the run is identical under any two
pseudo-random streams. -/
theorem C10_deterministic (p : List Char) (file : List Nat) (n1 n2 : Nat → ℚ) :
    runConvert true p file n1 = runConvert true p file n2 := by
  unfold runConvert
  cases hp : parsePhase file with
  | error e => rfl
  | ok q =>
    obtain ⟨nc, fr, ss, sdata⟩ := q
    dsimp only
    rw [sampleLoop_noise_irrel true ss ((wrap16 (nc - 1)).toNat) n1 n2 fr sdata dInit 0]

end Aiff2Arduino
